import Mathlib

/-!  Verification of the Plugo CSS build pipeline (src/scripts/build.js).

The JavaScript generator is embedded shallowly: every generator stage is a
pure Lean function over an explicit `ThemeConfig` value.  JavaScript numbers
are modelled as exact rationals (`ℚ`), `NaN` as `Option.none`, machine
strings as Lean `String`/`List Char`.  Regex-based text rewrites are embedded
as explicit fuelled scanners that reproduce the leftmost, non-overlapping,
sequential semantics of `String.prototype.replace` with a global pattern.  -/

namespace Plugo

/-- Whitespace characters of the JavaScript regex class for whitespace,
restricted to the ASCII whitespace that can occur in the generator. -/
def isWs (c : Char) : Bool :=
  c = ' ' || c = '\t' || c = '\n' || c = '\r' || c = '\x0b' || c = '\x0c'

/-- Punctuation class of the minifier rewrite, the characters brace-open,
brace-close, colon, semicolon and comma. -/
def isPunct (c : Char) : Bool :=
  c = '\x7b' || c = '\x7d' || c = ':' || c = ';' || c = ','

/-- Characters matched by the character class of digits and dot used by
`parseUnit`. -/
def isNumDot (c : Char) : Bool := c.isDigit || c = '.'

/-- Characters matched by the unit-suffix class of `parseUnit`
(lowercase letters and percent). -/
def isUnitChar (c : Char) : Bool := ('a' ≤ c && c ≤ 'z') || c = '%'

/-- Hexadecimal digit test (`parseInt` with radix 16 accepts both cases),
written on code points: digits, lowercase a to f, uppercase A to F. -/
def isHexDigitC (c : Char) : Bool :=
  (48 ≤ c.toNat && c.toNat ≤ 57) || (97 ≤ c.toNat && c.toNat ≤ 102) ||
    (65 ≤ c.toNat && c.toNat ≤ 70)

/-- Value of one hexadecimal digit, written on code points. -/
def hexVal (c : Char) : ℕ :=
  if 48 ≤ c.toNat && c.toNat ≤ 57 then c.toNat - 48
  else if 97 ≤ c.toNat && c.toNat ≤ 102 then c.toNat - 87
  else if 65 ≤ c.toNat && c.toNat ≤ 70 then c.toNat - 55
  else 0

/-- Decimal digit character. -/
def digitChar (n : ℕ) : Char := Char.ofNat (48 + n)

/-- Lowercase hexadecimal digit character, as produced by `toString(16)`. -/
def hexDigitChar (n : ℕ) : Char :=
  if n < 10 then Char.ofNat (48 + n) else Char.ofNat (87 + n)

/-- Floor of a rational number, computably. -/
def ratFloor (q : ℚ) : ℤ := q.num.fdiv q.den

/-- JavaScript `Math.round`: round half toward positive infinity. -/
def jsRound (q : ℚ) : ℤ := ratFloor (q + 1/2)

/-- Decimal string of a natural number (the JavaScript rendering of a
nonnegative integer). -/
def natStr (n : ℕ) : String := Nat.repr n

/-- Concatenation of a list of strings, the embedding of joining with the
empty separator and of accumulating string append loops. -/
def strConcat (l : List String) : String := l.foldr (· ++ ·) ""

/-- Big-endian hexadecimal digits of `n`, zero-padded to length `k`
(low digits of `n` if `n` needs more than `k` digits). -/
def hexDigitsLen : ℕ → ℕ → List Char
  | 0, _ => []
  | k+1, n => hexDigitsLen k (n / 16) ++ [hexDigitChar (n % 16)]

/-- JavaScript `||` fallback on a possibly-absent string: `undefined` and
the empty string are falsy. -/
def jsOrS (o : Option String) (d : String) : String :=
  match o with
  | none => d
  | some s => if s = "" then d else s

/-- JavaScript `||` fallback on a possibly-absent number: `undefined` and
`0` are falsy. -/
def jsOrQ (o : Option ℚ) (d : ℚ) : ℚ :=
  match o with
  | none => d
  | some q => if q = 0 then d else q

/-- JavaScript `String(value)` for a possibly-undefined string value. -/
def optStrJs : Option String → String
  | some s => s
  | none => "undefined"

/-- Least power of ten clearing the denominator of `q`, searched up to 400
(every number reaching the generator's string interpolations is a finite
decimal). -/
def pow10Exp (q : ℚ) : Option ℕ :=
  (List.range 401).find? (fun k => (q * (10 : ℚ) ^ k).den = 1)

/-- Zero-pad a digit string on the left to length `k`. -/
def padZeros (k : ℕ) (s : String) : String :=
  if s.length < k then String.mk (List.replicate (k - s.length) '0') ++ s else s

/-- JavaScript rendering of a finite-decimal number: integers print without
a decimal point, other finite decimals print with the fewest digits. -/
def jsNumRepr (q : ℚ) : String :=
  if q.den = 1 then q.num.repr
  else
    match pow10Exp q with
    | some k =>
        let m : ℕ := (q.num.natAbs * (10 : ℕ) ^ k) / q.den
        (if q < 0 then "-" else "") ++ natStr (m / 10 ^ k) ++ "." ++
          padZeros k (natStr (m % 10 ^ k))
    | none => q.num.repr

/-- JavaScript rendering of a number that may be `NaN`. -/
def jsJNumRepr : Option ℚ → String
  | none => "NaN"
  | some q => jsNumRepr q

section ParseUnit

/-- Leftmost match of the `parseUnit` regex (a nonempty run of digits and
dots immediately followed by a nonempty run of unit characters);
returns the two captured runs.  Fuelled scan, one position per step. -/
def findNumUnit : ℕ → List Char → Option (List Char × List Char)
  | 0, _ => none
  | _+1, [] => none
  | f+1, c :: cs =>
    if isNumDot c then
      if ((c :: cs).dropWhile isNumDot).takeWhile isUnitChar = [] then
        findNumUnit f ((c :: cs).dropWhile isNumDot)
      else some ((c :: cs).takeWhile isNumDot,
        ((c :: cs).dropWhile isNumDot).takeWhile isUnitChar)
    else findNumUnit f cs

/-- Value of a run of decimal digits. -/
def digitsVal (l : List Char) : ℕ := l.foldl (fun a c => 10 * a + (c.toNat - 48)) 0

/-- JavaScript `parseFloat` restricted to strings over digits and dots
(the only shape the first capture of `parseUnit` can have): integer part,
optional dot, fractional part, ignoring everything from a second dot on;
`none` models `NaN` (no digit at all). -/
def parseDecQ (l : List Char) : Option ℚ :=
  let intDigits := l.takeWhile Char.isDigit
  let rest := l.dropWhile Char.isDigit
  match rest with
  | '.' :: t =>
      let fracDigits := t.takeWhile Char.isDigit
      if intDigits = [] && fracDigits = [] then none
      else some ((digitsVal intDigits : ℚ) +
        (digitsVal fracDigits : ℚ) / (10 : ℚ) ^ fracDigits.length)
  | _ => if intDigits = [] then none else some (digitsVal intDigits)

/-- Result of `parseUnit`: a number (possibly `NaN`) and a unit string. -/
structure UnitParts where
  number : Option ℚ
  unit : String
  deriving DecidableEq, Repr

/-- Embedding of `parseUnit` from build.js: first regex match of
digits-and-dots followed by a unit suffix anywhere in the string, or the
`(0, px)` fallback when the regex does not match. -/
def parseUnit (value : String) : UnitParts :=
  match findNumUnit value.data.length value.data with
  | some (numRun, unitRun) => ⟨parseDecQ numRun, String.mk unitRun⟩
  | none => ⟨some 0, "px"⟩

end ParseUnit

section ColorAdjuster

/-- JavaScript `String.prototype.replace` with the literal pattern
hash-sign and empty replacement: drops the first hash only. -/
def replaceFirstHash : List Char → List Char
  | [] => []
  | '#' :: cs => cs
  | c :: cs => c :: replaceFirstHash cs

/-- JavaScript `parseInt(s, 16)`: value of the longest hexadecimal prefix,
`none` models `NaN`. -/
def hexRunVal (l : List Char) : Option ℕ :=
  if l.takeWhile isHexDigitC = [] then none
  else some ((l.takeWhile isHexDigitC).foldl (fun a c => 16 * a + hexVal c) 0)

/-- Embedding of `clampChannel` from build.js:
`Math.min(255, Math.max(0, Math.round(channel)))`. -/
def clampChannel (q : ℚ) : ℕ := (min 255 (max 0 (jsRound q))).toNat

/-- Embedding of `adjustColor` from build.js.  The hash is stripped, the rest
is parsed as a hexadecimal integer (`NaN` behaves as 0 in the bitwise reads,
which reduce modulo two to the thirty-two as the JavaScript shifts do), each
channel is moved toward 255 or toward 0 and clamped, and the three new
channels are re-encoded through `toString(16).slice(1)` of the 25-bit sum,
which for clamped channels is exactly six lowercase hex digits. -/
def adjustColor (hex : String) (amount : ℚ) : String :=
  let normalized := replaceFirstHash hex.data
  let bigint : ℕ :=
    (match hexRunVal normalized with | some v => v | none => 0) % 4294967296
  let r := bigint / 65536 % 256
  let g := bigint / 256 % 256
  let b := bigint % 256
  let factor := if 0 ≤ amount then amount else -amount
  let adj : ℕ → ℕ := fun channel =>
    if 0 ≤ amount then clampChannel ((channel : ℚ) + (255 - (channel : ℚ)) * factor)
    else clampChannel ((channel : ℚ) * (1 - factor))
  let newR := adj r
  let newG := adj g
  let newB := adj b
  "#" ++ String.mk ((hexDigitsLen 7 (16777216 + newR * 65536 + newG * 256 + newB)).drop 1)

end ColorAdjuster

section Config

/-- Font configuration of the theme. -/
structure TypographyCfg where
  main : String
  headlines : String

/-- Spacing configuration; both fields may be absent in the supplied config. -/
structure SpacingCfg where
  baseUnit : Option String
  ratioLineHeight : Option ℚ

/-- Layout configuration: container width, column count, ordered breakpoints. -/
structure LayoutCfg where
  container : String
  cols : ℕ
  breakpoints : List (String × String)

/-- Transition configuration (the source field named `type` is `kind` here). -/
structure TransitionCfg where
  duration : String
  kind : String

/-- Theme tokens; `colors` is an ordered association list, as property
insertion order of the JavaScript object. -/
structure Theme where
  colors : List (String × String)
  typography : TypographyCfg
  layout : LayoutCfg
  spacing : SpacingCfg
  transition : TransitionCfg

/-- Top-level configuration value consumed by `build`. -/
structure ThemeConfig where
  theme : Theme
  components : List String
  utilities : List String
  darkMode : Bool

end Config

section Palette

/-- Lighten strength constant of build.js (0.18). -/
def LIGHTEN_STRENGTH : ℚ := 18/100

/-- Darken strength constant of build.js (0.18). -/
def DARKEN_STRENGTH : ℚ := 18/100

/-- Three custom-property lines appended to the root block for one color. -/
def varLines (name value : String) : String :=
  "  --color-" ++ name ++ ": " ++ value ++ ";\n" ++
  "  --color-" ++ name ++ "-light: " ++ adjustColor value LIGHTEN_STRENGTH ++ ";\n" ++
  "  --color-" ++ name ++ "-dark: " ++ adjustColor value (-DARKEN_STRENGTH) ++ ";\n"

/-- Seven utility-class lines appended for one color. -/
def classLines (name : String) : String :=
  ".text-" ++ name ++ " \x7b color: var(--color-" ++ name ++ "); \x7d\n" ++
  ".text-" ++ name ++ "-light \x7b color: var(--color-" ++ name ++ "-light); \x7d\n" ++
  ".text-" ++ name ++ "-dark \x7b color: var(--color-" ++ name ++ "-dark); \x7d\n" ++
  ".bg-" ++ name ++ " \x7b background-color: var(--color-" ++ name ++ "); color: #0f172a; \x7d\n" ++
  ".bg-" ++ name ++ "-light \x7b background-color: var(--color-" ++ name ++ "-light); color: #0f172a; \x7d\n" ++
  ".bg-" ++ name ++ "-dark \x7b background-color: var(--color-" ++ name ++ "-dark); color: #f8fafc; \x7d\n" ++
  ".border-" ++ name ++ " \x7b border-color: var(--color-" ++ name ++ "); \x7d\n"

/-- Three recomputed custom-property lines of the dark-scheme block for one
color. -/
def darkLines (name value : String) : String :=
  let darker := adjustColor value (-DARKEN_STRENGTH * (12/10))
  let lifted := adjustColor value (LIGHTEN_STRENGTH * (8/10))
  "    --color-" ++ name ++ ": " ++ darker ++ ";\n" ++
  "    --color-" ++ name ++ "-light: " ++ lifted ++ ";\n" ++
  "    --color-" ++ name ++ "-dark: " ++ adjustColor darker (-(8/100)) ++ ";\n"

/-- Embedding of `generateColorPalette` from build.js: one pass over the
colors accumulates the root custom properties and the utility classes, then
the optional dark-scheme block is appended. -/
def generateColorPalette (colors : List (String × String)) (darkMode : Bool) : String :=
  let folded := colors.foldl
    (fun acc nv => (acc.1 ++ varLines nv.1 nv.2, acc.2 ++ classLines nv.1))
    (":root \x7b\n", "")
  let base := folded.1 ++ "\x7d\n\n"
  let utilities := folded.2
  let darkRoot :=
    if darkMode then
      "@media (prefers-color-scheme: dark) \x7b\n  :root \x7b\n" ++
      colors.foldl (fun acc nv => acc ++ darkLines nv.1 nv.2) "" ++
      "  \x7d\n  body \x7b background-color: #0f172a; color: #e2e8f0; \x7d\n\x7d\n\n"
    else ""
  base ++ utilities ++ darkRoot

end Palette

section Typography

/-- Embedding of `generateTypography` from build.js. -/
def generateTypography (theme : Theme) : String :=
  let lineHeightPercent := jsOrQ theme.spacing.ratioLineHeight (14/10) * 100
  "body \x7b\n  font-family: " ++ theme.typography.main ++
    ";\n  line-height: " ++ jsNumRepr lineHeightPercent ++
    "%;\n  color: #0f172a;\n\x7d\n\n" ++
  "h1, h2, h3, h4, h5, h6 \x7b\n  font-family: " ++ theme.typography.headlines ++
    ";\n  line-height: 120%;\n  margin-bottom: 0.5em;\n\x7d\n"

end Typography

section Layout

/-- Four zero-padded decimal digit characters of `n` modulo ten thousand. -/
def frac4 (n : ℕ) : List Char :=
  [digitChar (n / 1000 % 10), digitChar (n / 100 % 10),
   digitChar (n / 10 % 10), digitChar (n % 10)]

/-- JavaScript `toFixed(4)` for a nonnegative rational: round half up at the
fourth decimal and print exactly four fraction digits. -/
def fixed4 (q : ℚ) : String :=
  let n := (jsRound (q * 10000)).toNat
  natStr (n / 10000) ++ "." ++ String.mk (frac4 (n % 10000))

/-- Column percentage text for column `i` of `cols`. -/
def colPct (cols i : ℕ) : String := fixed4 (((i : ℚ) / (cols : ℚ)) * 100)

/-- Base column class line emitted by the layout loop. -/
def colEntry (cols i : ℕ) : String :=
  ".col-" ++ natStr i ++ " \x7b flex: 0 0 " ++ colPct cols i ++
    "%; max-width: " ++ colPct cols i ++ "%; \x7d\n"

/-- Breakpoint-prefixed column class line emitted inside a media query;
the colon of the prefixed name is backslash-escaped. -/
def bpColEntry (cols : ℕ) (pre : String) (i : ℕ) : String :=
  "  ." ++ pre ++ "\\:col-" ++ natStr i ++ " \x7b flex: 0 0 " ++ colPct cols i ++
    "%; max-width: " ++ colPct cols i ++ "%; \x7d\n"

/-- Media-query block re-emitting the full column set for one breakpoint. -/
def bpColBlock (cols : ℕ) (bp : String × String) : String :=
  "@media (min-width: " ++ bp.2 ++ ") \x7b\n" ++
  strConcat ((List.range cols).map (fun k => bpColEntry cols bp.1 (k+1))) ++
  "\x7d\n\n"

/-- Embedding of `generateLayout` from build.js. -/
def generateLayout (theme : Theme) : String :=
  let pu := parseUnit (jsOrS theme.spacing.baseUnit "16px")
  let gapStr := jsJNumRepr pu.number ++ pu.unit
  let cls := theme.layout.cols
  ".container \x7b\n  max-width: " ++ theme.layout.container ++
    ";\n  margin: 0 auto;\n  padding: 0 " ++ gapStr ++ ";\n\x7d\n\n" ++
  ".row \x7b\n  display: flex;\n  flex-wrap: wrap;\n  gap: " ++ gapStr ++
    ";\n\x7d\n\n" ++
  strConcat ((List.range cls).map (fun k => colEntry cls (k+1))) ++ "\n" ++
  strConcat (theme.layout.breakpoints.map (bpColBlock cls))

end Layout

section Spacing

/-- JavaScript stringification of `parseFloat(raw.toFixed(3))` for a
nonnegative non-integral rational: round half up at the third decimal, then
print with trailing fraction zeros dropped (re-parsing the three-decimal
text drops them). -/
def fmt3 (q : ℚ) : String :=
  let n := (jsRound (q * 1000)).toNat
  if n % 1000 = 0 then natStr (n / 1000)
  else natStr (n / 1000) ++ "." ++
    String.mk (((([digitChar (n / 100 % 10), digitChar (n / 10 % 10),
      digitChar (n % 10)].reverse).dropWhile (· = '0')).reverse))

/-- Embedding of `spacingValue` from build.js: parse the base unit, multiply,
print integers plainly and other values rounded to three decimals, then
append the unit suffix.  A `NaN` base number propagates to the text `NaN`. -/
def spacingValue (baseUnit : String) (multiplier : ℚ) : String :=
  let p := parseUnit baseUnit
  match p.number with
  | none => "NaN" ++ p.unit
  | some nq =>
      let raw := nq * multiplier
      (if raw.den = 1 then raw.num.repr else fmt3 raw) ++ p.unit

/-- Fixed spacing scale of build.js. -/
def scaleSteps : List ℚ := [0, 1/4, 1/2, 3/4, 1, 3/2, 2, 3]

/-- Property table of the spacing generator. -/
def propsList : List (String × String) := [("m", "margin"), ("p", "padding")]

/-- Direction table of the spacing generator. -/
def directionsList : List (String × List String) :=
  [("", [""]), ("t", ["-top"]), ("b", ["-bottom"]), ("l", ["-left"]),
   ("r", ["-right"]), ("x", ["-left", "-right"]), ("y", ["-top", "-bottom"])]

/-- Class name of one spacing utility: property key, optional direction
segment, scale index. -/
def spacingClassName (key sfx : String) (index : ℕ) : String :=
  key ++ (if sfx = "" then "" else "-" ++ sfx) ++ "-" ++ natStr index

/-- Declaration text of one spacing utility (one declaration per direction
property, joined with single spaces). -/
def spacingRules (label : String) (props : List String) (value : String) : String :=
  String.intercalate " " (props.map (fun sfx => label ++ sfx ++ ": " ++ value ++ ";"))

/-- Lines emitted for one (property, direction, scale index) triple: the base
class, then one media-query line per breakpoint with the colon-escaped
prefixed name and identical declaration text. -/
def spacingEntry (baseUnit : String) (breakpoints : List (String × String))
    (property : String × String) (direction : String × List String)
    (index : ℕ) (step : ℚ) : String :=
  let value := spacingValue baseUnit step
  let className := spacingClassName property.1 direction.1 index
  let rules := spacingRules property.2 direction.2 value
  "." ++ className ++ " \x7b " ++ rules ++ " \x7d\n" ++
  strConcat (breakpoints.map (fun bp =>
    "@media (min-width: " ++ bp.2 ++ ") \x7b ." ++ bp.1 ++ "\\:" ++ className ++
      " \x7b " ++ rules ++ " \x7d \x7d\n"))

/-- Embedding of `generateSpacingUtilities` from build.js. -/
def generateSpacingUtilities (theme : Theme) : String :=
  let baseUnit := jsOrS theme.spacing.baseUnit "16px"
  strConcat (propsList.map (fun property =>
    strConcat (directionsList.map (fun direction =>
      strConcat (scaleSteps.enum.map (fun st =>
        spacingEntry baseUnit theme.layout.breakpoints property direction st.1 st.2)))))) ++
  "\n"

end Spacing

section OtherUtilities

/-- Fixed class table of `generateFlexUtilities`. -/
def flexDefs : List (String × String) :=
  [("flex", "display: flex;"),
   ("inline-flex", "display: inline-flex;"),
   ("flex-col", "flex-direction: column;"),
   ("flex-row", "flex-direction: row;"),
   ("flex-wrap", "flex-wrap: wrap;"),
   ("items-center", "align-items: center;"),
   ("items-start", "align-items: flex-start;"),
   ("items-end", "align-items: flex-end;"),
   ("justify-center", "justify-content: center;"),
   ("justify-between", "justify-content: space-between;"),
   ("justify-around", "justify-content: space-around;"),
   ("grow", "flex: 1 1 0%;"),
   ("shrink", "flex: 0 1 auto;")]

/-- Embedding of `generateFlexUtilities` from build.js. -/
def generateFlexUtilities (layout : LayoutCfg) : String :=
  strConcat (flexDefs.map (fun d => "." ++ d.1 ++ " \x7b " ++ d.2 ++ " \x7d\n")) ++
  "\n" ++
  strConcat (layout.breakpoints.map (fun bp =>
    "@media (min-width: " ++ bp.2 ++ ") \x7b\n" ++
    strConcat (flexDefs.map (fun d =>
      "  ." ++ bp.1 ++ "\\:" ++ d.1 ++ " \x7b " ++ d.2 ++ " \x7d\n")) ++
    "\x7d\n"))

/-- Embedding of `generateImageUtilities` from build.js. -/
def generateImageUtilities : String :=
  ".img-responsive \x7b display: block; width: 100%; height: auto; \x7d\n" ++
  ".img-cover \x7b width: 100%; height: 100%; object-fit: cover; \x7d\n" ++
  ".img-contain \x7b width: 100%; height: 100%; object-fit: contain; \x7d\n\n"

/-- Embedding of `generateTransitionUtility` from build.js. -/
def generateTransitionUtility (theme : Theme) : String :=
  ".transition \x7b transition: all " ++ theme.transition.duration ++ " " ++
    theme.transition.kind ++ "; \x7d\n"

end OtherUtilities

section Components

/-- Button component block of `generateComponents`. -/
def buttonBlock (theme : Theme) : String :=
  let bu := optStrJs theme.spacing.baseUnit
  ".btn \x7b\n  display: inline-flex;\n  align-items: center;\n  justify-content: center;\n  gap: " ++
    spacingValue bu (1/2) ++ ";\n  padding: " ++ spacingValue bu (3/4) ++ " " ++
    spacingValue bu (5/4) ++
    ";\n  border-radius: 9999px;\n  border: 1px solid var(--color-primary);\n  background: var(--color-primary);\n  color: white;\n  font-weight: 600;\n  cursor: pointer;\n  text-decoration: none;\n  transition: background-color " ++
    theme.transition.duration ++ " " ++ theme.transition.kind ++ ", transform " ++
    theme.transition.duration ++ " " ++ theme.transition.kind ++ ";\n\x7d\n" ++
  ".btn:hover \x7b transform: translateY(-1px); background: var(--color-primary-dark); \x7d\n" ++
  ".btn:active \x7b transform: translateY(0); \x7d\n" ++
  ".btn-secondary \x7b background: white; color: var(--color-primary); border-color: var(--color-primary); \x7d\n" ++
  ".btn-secondary:hover \x7b background: var(--color-primary-light); color: #0f172a; \x7d\n\n"

/-- Card component block of `generateComponents`. -/
def cardBlock (theme : Theme) : String :=
  let bu := optStrJs theme.spacing.baseUnit
  ".card \x7b\n  background: white;\n  border: 1px solid #e5e7eb;\n  border-radius: 12px;\n  padding: " ++
    spacingValue bu (3/2) ++
    ";\n  box-shadow: 0 10px 30px rgba(15, 23, 42, 0.08);\n  transition: box-shadow " ++
    theme.transition.duration ++ " " ++ theme.transition.kind ++ ", transform " ++
    theme.transition.duration ++ " " ++ theme.transition.kind ++ ";\n\x7d\n" ++
  ".card:hover \x7b box-shadow: 0 15px 40px rgba(15, 23, 42, 0.12); transform: translateY(-2px); \x7d\n" ++
  ".card + .card \x7b margin-top: " ++ spacingValue bu (1/2) ++ "; \x7d\n\n"

/-- Alert component block of `generateComponents`, with one rule per tone of
the fixed tone list. -/
def alertBlock (theme : Theme) : String :=
  let bu := optStrJs theme.spacing.baseUnit
  ".alert \x7b\n  padding: " ++ spacingValue bu (3/4) ++
    ";\n  border-radius: 12px;\n  border: 1px solid transparent;\n  display: flex;\n  align-items: center;\n  gap: " ++
    spacingValue bu (1/2) ++ ";\n  font-weight: 600;\n\x7d\n" ++
  strConcat (["primary", "success", "warning", "danger"].map (fun tone =>
    ".alert-" ++ tone ++ " \x7b background: var(--color-" ++ tone ++
      "-light); border-color: var(--color-" ++ tone ++ "); color: #0f172a; \x7d\n")) ++
  "\n"

/-- Embedding of `generateComponents` from build.js: conditional blocks in
the fixed order button, card, alert. -/
def generateComponents (components : List String) (theme : Theme) : String :=
  (if components.contains "button" then buttonBlock theme else "") ++
  (if components.contains "card" then cardBlock theme else "") ++
  (if components.contains "alert" then alertBlock theme else "")

end Components

section UtilityCss

/-- Color-border utility block of `generateUtilityCss`. -/
def colorBorderBlock (colors : List (String × String)) : String :=
  strConcat (colors.map (fun nv =>
    "." ++ nv.1 ++ "-border \x7b border-color: var(--color-" ++ nv.1 ++ "); \x7d\n"))

/-- Embedding of `generateUtilityCss` from build.js: conditional utility
groups in the fixed order spacing, flex, color, image, then the transition
utility unconditionally. -/
def generateUtilityCss (config : ThemeConfig) : String :=
  (if config.utilities.contains "spacing" then generateSpacingUtilities config.theme else "") ++
  (if config.utilities.contains "flex" then generateFlexUtilities config.theme.layout else "") ++
  (if config.utilities.contains "color" then colorBorderBlock config.theme.colors else "") ++
  (if config.utilities.contains "image" then generateImageUtilities else "") ++
  generateTransitionUtility config.theme

end UtilityCss

section Autoprefix

/-- One rewrite rule of `applyAutoprefix`: either a literal pattern, or a
literal followed by optional whitespace followed by a second literal
(the shape of the two patterns containing a whitespace class). -/
inductive Rule where
  | lit (pat ins : List Char)
  | litWs (pat1 pat2 ins : List Char)
  deriving DecidableEq

/-- Inserted text of a rule. -/
def ruleIns : Rule → List Char
  | .lit _ ins => ins
  | .litWs _ _ ins => ins

/-- Match attempt of a rule's pattern at the head of the text; on success
returns the matched text and the remainder after it. -/
def matchAt (r : Rule) (l : List Char) : Option (List Char × List Char) :=
  match r with
  | .lit pat _ =>
      if pat.isPrefixOf l then some (pat, l.drop pat.length) else none
  | .litWs p1 p2 _ =>
      if p1.isPrefixOf l then
        let t := l.drop p1.length
        let ws := t.takeWhile isWs
        let u := t.dropWhile isWs
        if p2.isPrefixOf u then some (p1 ++ ws ++ p2, u.drop p2.length)
        else none
      else none

/-- Well-formedness of a rule: its literal pieces are nonempty, so every
match consumes at least one character. -/
def ruleOk : Rule → Prop
  | .lit pat _ => pat ≠ []
  | .litWs p1 p2 _ => p1 ≠ [] ∧ p2 ≠ []

/-- Fuelled global replace of one rule: at each position, either the pattern
matches and the rule's insertion plus a newline and two spaces is emitted
before the intact matched text with scanning resuming after the match, or
one character is copied.  This is the leftmost, non-overlapping semantics of
`String.prototype.replace` with a global regex and the replacer of
`applyAutoprefix`. -/
def scanRuleAux : ℕ → Rule → List Char → List Char
  | 0, _, l => l
  | _+1, _, [] => []
  | f+1, r, c :: cs =>
    match matchAt r (c :: cs) with
    | some (m, rest) => ruleIns r ++ '\n' :: ' ' :: ' ' :: (m ++ scanRuleAux f r rest)
    | none => c :: scanRuleAux f r cs

/-- Global replace of one rule over a string. -/
def applyRule (r : Rule) (s : String) : String :=
  String.mk (scanRuleAux s.data.length r s.data)

/-- Leftmost match of a rule in a text: the text before the match, the
matched text, and the text after it. -/
def firstMatchAux : ℕ → Rule → List Char → Option (List Char × List Char × List Char)
  | 0, _, _ => none
  | _+1, _, [] => none
  | f+1, r, c :: cs =>
    match matchAt r (c :: cs) with
    | some (m, rest) => some ([], m, rest)
    | none => (firstMatchAux f r cs).map (fun x => (c :: x.1, x.2.1, x.2.2))

/-- Leftmost match of a rule in a string. -/
def firstMatch (r : Rule) (s : String) : Option (List Char × List Char × List Char) :=
  firstMatchAux s.data.length r s.data

/-- First rule: display flex. -/
def ruleDisplayFlex : Rule :=
  .litWs "display:".data "flex;".data
    "display: -webkit-box;\n  display: -ms-flexbox;\n  display: flex;".data

/-- Second rule: display inline-flex. -/
def ruleInlineFlex : Rule :=
  .litWs "display:".data "inline-flex;".data
    "display: -webkit-inline-box;\n  display: -ms-inline-flexbox;\n  display: inline-flex;".data

/-- Third rule: user-select. -/
def ruleUserSelect : Rule := .lit "user-select:".data "-webkit-user-select:".data

/-- Fourth rule: appearance none. -/
def ruleAppearance : Rule :=
  .litWs "appearance:".data "none;".data "-webkit-appearance: none;\n  appearance: none;".data

/-- Fifth rule: backdrop-filter. -/
def ruleBackdrop : Rule := .lit "backdrop-filter:".data "-webkit-backdrop-filter:".data

/-- Sixth rule: object-fit. -/
def ruleObjectFit : Rule := .lit "object-fit:".data "-o-object-fit:".data

/-- Seventh rule: transition. -/
def ruleTransitionProp : Rule := .lit "transition:".data "-webkit-transition:".data

/-- Eighth rule: box-shadow. -/
def ruleBoxShadow : Rule := .lit "box-shadow:".data "-webkit-box-shadow:".data

/-- Ninth rule: transform. -/
def ruleTransformProp : Rule := .lit "transform:".data "-webkit-transform:".data

/-- The ordered replacement list of `applyAutoprefix` from build.js. -/
def ruleList : List Rule :=
  [ruleDisplayFlex, ruleInlineFlex, ruleUserSelect, ruleAppearance,
   ruleBackdrop, ruleObjectFit, ruleTransitionProp, ruleBoxShadow, ruleTransformProp]

/-- Embedding of `applyAutoprefix` from build.js: the rules are applied
sequentially, each over the whole text produced by the previous one. -/
def applyAutoprefixRules (css : String) : String :=
  ruleList.foldl (fun acc r => applyRule r acc) css

end Autoprefix

section Minify

/-- Split a text at the first closing comment delimiter, returning the text
after it. -/
def findCommentClose : List Char → Option (List Char)
  | [] => none
  | '*' :: '/' :: t => some t
  | _ :: t => findCommentClose t

/-- Fuelled removal of block comments: the comment regex of `minifyCSS`
matches from each comment opener through the first closer; an unterminated
opener is not a match and is copied. -/
def stripCommentsAux : ℕ → List Char → List Char
  | 0, l => l
  | _+1, [] => []
  | f+1, '/' :: '*' :: rest =>
    (match findCommentClose rest with
     | some rest' => stripCommentsAux f rest'
     | none => '/' :: stripCommentsAux f ('*' :: rest))
  | f+1, c :: cs => c :: stripCommentsAux f cs

/-- Fuelled rewrite deleting whitespace around the punctuation class: at a
punctuation character, or at a whitespace run directly followed by one, the
match (leading run, punctuation, trailing run) is replaced by the bare
punctuation character; other text is copied. -/
def stripPunctWsAux : ℕ → List Char → List Char
  | 0, l => l
  | _+1, [] => []
  | f+1, c :: cs =>
    if isPunct c then c :: stripPunctWsAux f (cs.dropWhile isWs)
    else if isWs c then
      let run := (c :: cs).takeWhile isWs
      let rest := (c :: cs).dropWhile isWs
      match rest with
      | p :: rest' =>
          if isPunct p then p :: stripPunctWsAux f (rest'.dropWhile isWs)
          else run ++ stripPunctWsAux f rest
      | [] => run
    else c :: stripPunctWsAux f cs

/-- Global replace of semicolon-brace by brace (leftmost, non-overlapping). -/
def removeSemiBrace : List Char → List Char
  | [] => []
  | ';' :: '\x7d' :: t => '\x7d' :: removeSemiBrace t
  | c :: t => c :: removeSemiBrace t

/-- Collapse of every whitespace run to a single space; the flag records
whether the previous character belonged to a run already replaced. -/
def collapseWsAux : Bool → List Char → List Char
  | _, [] => []
  | true, c :: cs =>
    if isWs c then collapseWsAux true cs else c :: collapseWsAux false cs
  | false, c :: cs =>
    if isWs c then ' ' :: collapseWsAux true cs else c :: collapseWsAux false cs

/-- JavaScript `trim`: drop whitespace from both ends. -/
def jsTrim (l : List Char) : List Char :=
  ((l.dropWhile isWs).reverse.dropWhile isWs).reverse

/-- Embedding of `minifyCSS` from build.js: strip comments, delete
whitespace around punctuation, drop semicolons before closing braces,
collapse remaining whitespace runs to single spaces, trim. -/
def minifyCSS (css : String) : String :=
  let a := stripCommentsAux css.data.length css.data
  let b := stripPunctWsAux a.length a
  String.mk (jsTrim (collapseWsAux false (removeSemiBrace b)))

end Minify

section CountClasses

/-- Class-name characters of the `countClasses` token pattern. -/
def isNameChar (c : Char) : Bool := c.isAlpha || c.isDigit || c = '_' || c = '-'

/-- Whether a text starts with a name character. -/
def headIsName (cs : List Char) : Bool :=
  match cs with
  | [] => false
  | d :: _ => isNameChar d

/-- Fuelled scan for the matches of the dot-token pattern of `countClasses`:
each dot directly followed by a name character yields the dot together with
the maximal name-character run, and scanning resumes after the run. -/
def cssTokensAux : ℕ → List Char → List (List Char)
  | 0, _ => []
  | _+1, [] => []
  | f+1, c :: cs =>
    if c = '.' && headIsName cs then
      ('.' :: cs.takeWhile isNameChar) :: cssTokensAux f (cs.dropWhile isNameChar)
    else cssTokensAux f cs

/-- All dot-token matches of a string. -/
def cssTokens (css : String) : List String :=
  (cssTokensAux css.data.length css.data).map String.mk

/-- Embedding of `countClasses` from build.js: the number of distinct
dot-token matches. -/
def countClasses (css : String) : ℕ := (cssTokens css).toFinset.card

/-- Whether the character before a dot permits a class-selector reading
(a dot directly preceded by a name character continues a word such as a
decimal numeral or a dotted file name and is not a selector start). -/
def prevNotName : Option Char → Bool
  | none => true
  | some pc => !(isNameChar pc)

/-- Modelled from the spec: dot-token matches annotated with whether they sit
at a class-selector position, tracking the previous character through the
scan of `cssTokensAux`. -/
def selTokensAux : ℕ → Option Char → List Char → List (List Char × Bool)
  | 0, _, _ => []
  | _+1, _, [] => []
  | f+1, prev, c :: cs =>
    if c = '.' && headIsName cs then
      ('.' :: cs.takeWhile isNameChar, prevNotName prev) ::
        selTokensAux f (some ((cs.takeWhile isNameChar).getLastD '.')) (cs.dropWhile isNameChar)
    else selTokensAux f (some c) cs

/-- Modelled from the spec: the number of distinct dot tokens occurring at a
class-selector position in the text. -/
def classSelCount (css : String) : ℕ :=
  ((((selTokensAux css.data.length none css.data).filter (·.2)).map
    (fun x => String.mk x.1)).toFinset).card

end CountClasses

section Pipeline

/-- Fixed banner comment of the generated stylesheet. -/
def headerComment : String :=
  "/*\n  Plugo CSS Framework\n  Generated automatically from plugo.config.js\n*/\n\n"

/-- Embedding of the stylesheet assembly of `build` from build.js: header,
palette, typography, layout, components, utilities marker, utility groups. -/
def buildCss (config : ThemeConfig) : String :=
  headerComment ++
  generateColorPalette config.theme.colors config.darkMode ++
  generateTypography config.theme ++
  "\n" ++ generateLayout config.theme ++
  "\n" ++ generateComponents config.components config.theme ++
  "\n/* Utilities */\n" ++ generateUtilityCss config

/-- Readable artifact: the autoprefixed full stylesheet text. -/
def readableCss (config : ThemeConfig) : String :=
  applyAutoprefixRules (buildCss config)

/-- Minified artifact: the minifier applied to the autoprefixed text. -/
def minifiedCss (config : ThemeConfig) : String :=
  minifyCSS (readableCss config)

/-- One build run: the pair of artifacts written by `build`. -/
def runPipeline (config : ThemeConfig) : String × String :=
  (readableCss config, minifiedCss config)

/-- Reported class metric of the build: `countClasses` of the readable
(autoprefixed) text. -/
def reportClasses (config : ThemeConfig) : ℕ :=
  countClasses (readableCss config)

end Pipeline

section SpecSide

/-- Modelled from the spec: the three custom properties emitted for one named
color — base value, light variant adjusted by plus 0.18, dark variant
adjusted by minus 0.18. -/
def specColorProps (name value : String) : String :=
  "  --color-" ++ name ++ ": " ++ value ++ ";\n" ++
  "  --color-" ++ name ++ "-light: " ++ adjustColor value (18/100) ++ ";\n" ++
  "  --color-" ++ name ++ "-dark: " ++ adjustColor value (-(18/100)) ++ ";\n"

/-- Modelled from the spec: the seven utility classes emitted per color, in
order text, text-light, text-dark, bg, bg-light, bg-dark, border. -/
def specColorClassList (name : String) : List String :=
  [".text-" ++ name ++ " \x7b color: var(--color-" ++ name ++ "); \x7d\n",
   ".text-" ++ name ++ "-light \x7b color: var(--color-" ++ name ++ "-light); \x7d\n",
   ".text-" ++ name ++ "-dark \x7b color: var(--color-" ++ name ++ "-dark); \x7d\n",
   ".bg-" ++ name ++ " \x7b background-color: var(--color-" ++ name ++ "); color: #0f172a; \x7d\n",
   ".bg-" ++ name ++ "-light \x7b background-color: var(--color-" ++ name ++ "-light); color: #0f172a; \x7d\n",
   ".bg-" ++ name ++ "-dark \x7b background-color: var(--color-" ++ name ++ "-dark); color: #f8fafc; \x7d\n",
   ".border-" ++ name ++ " \x7b border-color: var(--color-" ++ name ++ "); \x7d\n"]

/-- Modelled from the spec: the recomputed dark-scheme custom properties for
one color — base set to darker (adjust by minus 0.18 times 1.2), light set
to adjust by plus 0.18 times 0.8, dark set to darker adjusted by a further
minus 0.08. -/
def specDarkProps (name value : String) : String :=
  "    --color-" ++ name ++ ": " ++ adjustColor value (-(18/100 * (12/10))) ++ ";\n" ++
  "    --color-" ++ name ++ "-light: " ++ adjustColor value (18/100 * (8/10)) ++ ";\n" ++
  "    --color-" ++ name ++ "-dark: " ++
    adjustColor (adjustColor value (-(18/100 * (12/10)))) (-(8/100)) ++ ";\n"

/-- Modelled from the spec: the palette output — the root block with three
custom properties per color in mapping order, then the seven utility classes
per color in mapping order, then, exactly when dark mode is on, one
prefers-color-scheme block with the recomputed properties and the fixed body
override. -/
def specPalette (colors : List (String × String)) (darkMode : Bool) : String :=
  ":root \x7b\n" ++ strConcat (colors.map (fun nv => specColorProps nv.1 nv.2)) ++
  "\x7d\n\n" ++
  strConcat (colors.map (fun nv => strConcat (specColorClassList nv.1))) ++
  (if darkMode then
    "@media (prefers-color-scheme: dark) \x7b\n  :root \x7b\n" ++
    strConcat (colors.map (fun nv => specDarkProps nv.1 nv.2)) ++
    "  \x7d\n  body \x7b background-color: #0f172a; color: #e2e8f0; \x7d\n\x7d\n\n"
   else "")

/-- Modelled from the spec: the component block belonging to one recognized
component name. -/
def specComponentBlock (name : String) (theme : Theme) : String :=
  if name = "button" then buttonBlock theme
  else if name = "card" then cardBlock theme
  else alertBlock theme

/-- Modelled from the spec: the utility block belonging to one recognized
utility-group name. -/
def specUtilityBlock (name : String) (config : ThemeConfig) : String :=
  if name = "spacing" then generateSpacingUtilities config.theme
  else if name = "flex" then generateFlexUtilities config.theme.layout
  else if name = "color" then colorBorderBlock config.theme.colors
  else generateImageUtilities

/-- Modelled from the spec: the orchestrated stylesheet — header comment,
palette, typography, layout, the recognized component blocks in the fixed
recognized order (button, card, alert), the utilities marker, the recognized
utility blocks in the fixed recognized order (spacing, flex, color, image),
and the transition utility last. -/
def buildCssSpec (config : ThemeConfig) : String :=
  headerComment ++
  generateColorPalette config.theme.colors config.darkMode ++
  generateTypography config.theme ++
  "\n" ++ generateLayout config.theme ++
  "\n" ++
  strConcat ((["button", "card", "alert"].filter
    (fun n => config.components.contains n)).map
      (fun n => specComponentBlock n config.theme)) ++
  "\n/* Utilities */\n" ++
  strConcat ((["spacing", "flex", "color", "image"].filter
    (fun n => config.utilities.contains n)).map
      (fun n => specUtilityBlock n config)) ++
  generateTransitionUtility config.theme

/-- Modelled from the spec: the spacing value text — the product printed as
a plain integer when it is whole and otherwise rounded to three decimals,
followed by the unit suffix. -/
def specSpacingText (nq step : ℚ) (u : String) : String :=
  (if (nq * step).den = 1 then (nq * step).num.repr else fmt3 (nq * step)) ++ u

/-- Modelled from the spec: per-channel adjustment — toward 255 by
`channel + (255 - channel) * amount` for a nonnegative amount, toward 0 by
`channel * (1 - |amount|)` otherwise, rounded to nearest and clamped. -/
def jsAdjustChannel (amount : ℚ) (channel : ℕ) : ℕ :=
  if 0 ≤ amount then clampChannel ((channel : ℚ) + (255 - (channel : ℚ)) * amount)
  else clampChannel ((channel : ℚ) * (1 - |amount|))

/-- Two zero-padded lowercase hexadecimal digits of a byte. -/
def byteHex (n : ℕ) : String := String.mk [hexDigitChar (n / 16), hexDigitChar (n % 16)]

/-- No character of the digits-and-dot class is directly followed by a unit
character anywhere in the text (so the `parseUnit` regex cannot match). -/
def noNumDotUnitPair : List Char → Bool
  | [] => true
  | [_] => true
  | a :: b :: t => !(isNumDot a && isUnitChar b) && noNumDotUnitPair (b :: t)

/-- No digit is directly followed by a unit character anywhere in the text
(the literal domain condition of the claim: no digit run directly followed
by a unit suffix). -/
def noDigitUnitPair : List Char → Bool
  | [] => true
  | [_] => true
  | a :: b :: t => !(a.isDigit && isUnitChar b) && noDigitUnitPair (b :: t)

/-- No two consecutive whitespace characters. -/
def noTwoWs (l : List Char) : Prop :=
  List.Chain' (fun a b => isWs a = false ∨ isWs b = false) l

/-- Minimal concrete configuration used for concrete runs: no colors, one
column, no breakpoints, no components, no utility groups. -/
def cfgMinimal : ThemeConfig :=
  { theme :=
    { colors := []
      typography := { main := "sans-serif", headlines := "serif" }
      layout := { container := "960px", cols := 1, breakpoints := [] }
      spacing := { baseUnit := some "16px", ratioLineHeight := none }
      transition := { duration := "0.3s", kind := "ease" } }
    components := []
    utilities := []
    darkMode := false }

end SpecSide

section StringLemmas

theorem strConcat_nil : strConcat [] = "" := rfl

theorem strConcat_cons (s : String) (l : List String) :
    strConcat (s :: l) = s ++ strConcat l := rfl

theorem foldl_append_eq {α : Type} (f : α → String) :
    ∀ (l : List α) (s : String),
      l.foldl (fun acc x => acc ++ f x) s = s ++ strConcat (l.map f) := by
  intro l
  induction l with
  | nil => intro s; simp [strConcat]
  | cons h t ih =>
      intro s
      simp only [List.foldl_cons, List.map_cons, strConcat_cons]
      rw [ih, String.append_assoc]

theorem paletteFold_eq :
    ∀ (l : List (String × String)) (b u : String),
      l.foldl (fun acc nv => (acc.1 ++ varLines nv.1 nv.2, acc.2 ++ classLines nv.1)) (b, u)
      = (b ++ strConcat (l.map (fun nv => varLines nv.1 nv.2)),
         u ++ strConcat (l.map (fun nv => classLines nv.1))) := by
  intro l
  induction l with
  | nil => intro b u; simp [strConcat]
  | cons h t ih =>
      intro b u
      simp only [List.foldl_cons, List.map_cons, strConcat_cons]
      rw [ih, String.append_assoc, String.append_assoc]

theorem varLines_eq (name value : String) :
    varLines name value = specColorProps name value := rfl

theorem classLines_eq (name : String) :
    classLines name = strConcat (specColorClassList name) := by
  simp only [classLines, specColorClassList, strConcat_cons, strConcat_nil,
    String.append_empty, String.append_assoc]

theorem darkLines_eq (name value : String) :
    darkLines name value = specDarkProps name value := by
  simp only [darkLines, specDarkProps, DARKEN_STRENGTH, LIGHTEN_STRENGTH, neg_mul]

end StringLemmas

section CollapseLemmas

theorem collapse_true_head :
    ∀ (l : List Char) (c : Char) (cs : List Char),
      collapseWsAux true l = c :: cs → isWs c = false := by
  intro l
  induction l with
  | nil => intro c cs h; simp [collapseWsAux] at h
  | cons d t ih =>
      intro c cs h
      by_cases hd : isWs d = true
      · rw [collapseWsAux, if_pos hd] at h
        exact ih c cs h
      · rw [collapseWsAux, if_neg hd] at h
        injection h with h1 h2
        subst h1
        exact Bool.of_not_eq_true hd

theorem collapse_chain :
    ∀ (l : List Char) (b : Bool),
      List.Chain' (fun a b => isWs a = false ∨ isWs b = false) (collapseWsAux b l) := by
  intro l
  induction l with
  | nil => intro b; cases b <;> exact List.chain'_nil
  | cons c cs ih =>
      intro b
      by_cases hc : isWs c = true
      · cases b with
        | true =>
            rw [collapseWsAux, if_pos hc]
            exact ih true
        | false =>
            rw [collapseWsAux, if_pos hc]
            rw [List.chain'_cons']
            refine ⟨?_, ih true⟩
            intro y hy
            right
            cases hmem : collapseWsAux true cs with
            | nil => rw [hmem] at hy; simp at hy
            | cons z zs =>
                rw [hmem] at hy
                simp at hy
                subst hy
                exact collapse_true_head cs z zs hmem
      · have hgoal : List.Chain' (fun a b => isWs a = false ∨ isWs b = false)
            (c :: collapseWsAux false cs) := by
          rw [List.chain'_cons']
          exact ⟨fun y _ => Or.inl (Bool.of_not_eq_true hc), ih false⟩
        cases b with
        | true => rw [collapseWsAux, if_neg hc]; exact hgoal
        | false => rw [collapseWsAux, if_neg hc]; exact hgoal

theorem chain_dropWhile {R : Char → Char → Prop} (p : Char → Bool) :
    ∀ (l : List Char), List.Chain' R l → List.Chain' R (l.dropWhile p) := by
  intro l
  induction l with
  | nil => intro h; exact h
  | cons c cs ih =>
      intro h
      by_cases hc : p c = true
      · rw [List.dropWhile_cons, if_pos hc]
        exact ih (List.Chain'.tail h)
      · rw [List.dropWhile_cons, if_neg hc]
        exact h

theorem chain_reverse_sym :
    ∀ (l : List Char),
      List.Chain' (fun a b => isWs a = false ∨ isWs b = false) l →
      List.Chain' (fun a b => isWs a = false ∨ isWs b = false) l.reverse := by
  intro l h
  rw [List.chain'_reverse]
  exact List.Chain'.imp (fun a b hab => Or.symm hab) h

end CollapseLemmas

/-- Claim C1: the generation pipeline is deterministic — for every fixed
config value, the composed generator chain is a pure function of the config,
so any two runs on the same config value yield byte-identical readable and
minified stylesheet texts. -/
theorem claim_C1_determinism :
    ∀ (config : ThemeConfig) (run1 run2 : String × String),
      run1 = runPipeline config → run2 = runPipeline config →
      run1.1 = run2.1 ∧ run1.2 = run2.2 ∧ run1 = run2 := by
  intro config run1 run2 h1 h2
  subst h1; subst h2
  exact ⟨rfl, rfl, rfl⟩

/-- Witness for claim C1 at the concrete minimal configuration. -/
theorem claim_C1_determinism_witness :
    (runPipeline cfgMinimal).1 = (runPipeline cfgMinimal).1 ∧
    (runPipeline cfgMinimal).2 = (runPipeline cfgMinimal).2 ∧
    runPipeline cfgMinimal = runPipeline cfgMinimal :=
  claim_C1_determinism cfgMinimal (runPipeline cfgMinimal) (runPipeline cfgMinimal) rfl rfl

/-- Claim C3: for every colors mapping and dark-mode flag, the palette
generator emits, per named color in mapping order, three custom properties
(base, light adjusted by plus 0.18, dark adjusted by minus 0.18) in the root
block, then exactly seven utility classes per color, and exactly when dark
mode is on one prefers-color-scheme block recomputing, per color, darker =
adjust(base, minus 0.18 times 1.2), light = adjust(base, plus 0.18 times
0.8), dark = adjust(darker, minus 0.08), plus the fixed body override. -/
theorem claim_C3_palette :
    ∀ (colors : List (String × String)) (darkMode : Bool),
      generateColorPalette colors darkMode = specPalette colors darkMode ∧
      (∀ name, (specColorClassList name).length = 7) := by
  intro colors darkMode
  refine ⟨?_, fun name => rfl⟩
  have hvar : colors.map (fun nv => varLines nv.1 nv.2)
      = colors.map (fun nv => specColorProps nv.1 nv.2) := rfl
  have hcls : colors.map (fun nv => classLines nv.1)
      = colors.map (fun nv => strConcat (specColorClassList nv.1)) :=
    List.map_congr_left (fun nv _ => classLines_eq nv.1)
  have hdark : colors.map (fun nv => darkLines nv.1 nv.2)
      = colors.map (fun nv => specDarkProps nv.1 nv.2) :=
    List.map_congr_left (fun nv _ => darkLines_eq nv.1 nv.2)
  simp only [generateColorPalette, specPalette, paletteFold_eq,
    foldl_append_eq (fun nv : String × String => darkLines nv.1 nv.2) colors "",
    String.empty_append, hvar, hcls, hdark, String.append_assoc]

/-- Claim C6 counterexample: the minifier is not idempotent and its output
can contain a semicolon-brace pair — the overlapping input of two
semicolons before a brace minifies to semicolon-brace, and minifying again
changes it. -/
theorem claim_C6_counterexample :
    minifyCSS ";;\x7d" = ";\x7d" ∧
    minifyCSS (minifyCSS ";;\x7d") = "\x7d" ∧
    minifyCSS (minifyCSS ";;\x7d") ≠ minifyCSS ";;\x7d" := by
  refine ⟨by decide, by decide, by decide⟩

/-- Claim C6 (amended): for every CSS text, the minified output contains no
two consecutive whitespace characters. -/
theorem claim_C6_minify_no_double_ws :
    ∀ (css : String), noTwoWs (minifyCSS css).data := by
  intro css
  show noTwoWs (jsTrim (collapseWsAux false (removeSemiBrace
    (stripPunctWsAux (stripCommentsAux css.data.length css.data).length
      (stripCommentsAux css.data.length css.data)))))
  unfold jsTrim noTwoWs
  apply chain_reverse_sym
  apply chain_dropWhile
  apply chain_reverse_sym
  apply chain_dropWhile
  apply collapse_chain

section ParseUnitLemmas

theorem noPair_tail (c : Char) (cs : List Char)
    (h : noNumDotUnitPair (c :: cs) = true) : noNumDotUnitPair cs = true := by
  cases cs with
  | nil => rfl
  | cons b t =>
      rw [noNumDotUnitPair, Bool.and_eq_true] at h
      exact h.2

theorem noPair_dropRun :
    ∀ (cs : List Char) (c : Char), isNumDot c = true →
      noNumDotUnitPair (c :: cs) = true →
      ((c :: cs).dropWhile isNumDot).takeWhile isUnitChar = [] ∧
      noNumDotUnitPair ((c :: cs).dropWhile isNumDot) = true := by
  intro cs
  induction cs with
  | nil =>
      intro c hc _
      rw [List.dropWhile_cons, if_pos hc]
      exact ⟨rfl, rfl⟩
  | cons b t ih =>
      intro c hc h
      rw [noNumDotUnitPair, Bool.and_eq_true] at h
      obtain ⟨hpair, htail⟩ := h
      have hbu : isUnitChar b = false := by
        cases hbu : isUnitChar b with
        | false => rfl
        | true => rw [hc, hbu] at hpair; simp at hpair
      rw [List.dropWhile_cons, if_pos hc]
      by_cases hb : isNumDot b = true
      · exact ih b hb htail
      · rw [List.dropWhile_cons, if_neg hb]
        constructor
        · rw [List.takeWhile_cons, hbu]; rfl
        · exact htail

theorem findNumUnit_none :
    ∀ (f : ℕ) (l : List Char), noNumDotUnitPair l = true → findNumUnit f l = none := by
  intro f
  induction f with
  | zero => intro l _; rfl
  | succ f ih =>
      intro l h
      cases l with
      | nil => rfl
      | cons c cs =>
          rw [findNumUnit]
          by_cases hc : isNumDot c = true
          · rw [if_pos hc]
            obtain ⟨hu, hrest⟩ := noPair_dropRun cs c hc h
            rw [if_pos hu]
            exact ih _ hrest
          · rw [if_neg hc]
            exact ih cs (noPair_tail c cs h)

theorem findNumUnit_unit_ne :
    ∀ (f : ℕ) (l a u : List Char), findNumUnit f l = some (a, u) → u ≠ [] := by
  intro f
  induction f with
  | zero => intro l a u h; exact absurd h (by simp [findNumUnit])
  | succ f ih =>
      intro l a u h
      cases l with
      | nil => exact absurd h (by simp [findNumUnit])
      | cons c cs =>
          rw [findNumUnit] at h
          by_cases hc : isNumDot c = true
          · rw [if_pos hc] at h
            by_cases hu : ((c :: cs).dropWhile isNumDot).takeWhile isUnitChar = []
            · rw [if_pos hu] at h
              exact ih _ a u h
            · rw [if_neg hu] at h
              injection h with h1
              injection h1 with h2 h3
              rw [h3] at hu
              exact hu
          · rw [if_neg hc] at h
            exact ih cs a u h

theorem parseUnit_unit_ne (b : String) : (parseUnit b).unit ≠ "" := by
  rw [parseUnit]
  cases hfind : findNumUnit b.data.length b.data with
  | none => intro hcontra; simp at hcontra
  | some p =>
      obtain ⟨a, u⟩ := p
      have hu : u ≠ [] := findNumUnit_unit_ne _ _ a u hfind
      intro hcontra
      simp only at hcontra
      apply hu
      have := congrArg String.data hcontra
      simpa using this

end ParseUnitLemmas

/-- Claim C10 counterexample: the string of digit five, dot, p, x contains no
digit run directly followed by a unit suffix, yet parseUnit returns number
five (the regex class of digits-and-dots also matches across the dot), not
the zero-px fallback the claim asserts. -/
theorem claim_C10_counterexample :
    noDigitUnitPair "5.px".data = true ∧
    parseUnit "5.px" = ⟨some 5, "px"⟩ ∧
    parseUnit "5.px" ≠ ⟨some 0, "px"⟩ := by
  refine ⟨by decide, by with_unfolding_all decide, by with_unfolding_all decide⟩

/-- Claim C10 (amended): for every input string in which no character of the
digits-and-dot class is directly followed by a unit character (so the
`parseUnit` regex cannot match — in particular for empty or alphabetic
strings such as the rendering of an undefined base unit), `parseUnit`
totalizes to number zero with unit px, every spacing value derived from such
a base unit degrades to the text zero-px for every scale multiplier, and the
layout padding text rendered from it is the text zero-px. -/
theorem claim_C10_parseUnit_fallback :
    ∀ (s : String), noNumDotUnitPair s.data = true →
      parseUnit s = ⟨some 0, "px"⟩ ∧
      (∀ m : ℚ, spacingValue s m = "0px") ∧
      jsJNumRepr (parseUnit s).number ++ (parseUnit s).unit = "0px" := by
  intro s h
  have hp : parseUnit s = ⟨some 0, "px"⟩ := by
    rw [parseUnit, findNumUnit_none _ _ h]
  refine ⟨hp, ?_, ?_⟩
  · intro m
    simp only [spacingValue, hp, zero_mul]
    show (if (0 : ℚ).den = 1 then ((0 : ℚ)).num.repr else fmt3 0) ++ "px" = "0px"
    norm_num
    rfl
  · rw [hp]
    rfl

/-- Witness for the amended claim C10 at the rendering of an undefined base
unit. -/
theorem claim_C10_witness :
    parseUnit "undefined" = ⟨some 0, "px"⟩ ∧
    spacingValue "undefined" (3/4) = "0px" :=
  ⟨(claim_C10_parseUnit_fallback "undefined" (by decide)).1,
   (claim_C10_parseUnit_fallback "undefined" (by decide)).2.1 (3/4)⟩

/-- Claim C5: for a base unit whose parse yields a number and a unit suffix,
every spacing value on the fixed scale is the product formatted as a plain
integer when whole and otherwise rounded to three decimals, followed by the
unit suffix; in particular scale step zero always yields the text zero
followed by the nonempty unit suffix, never a bare zero. -/
theorem claim_C5_spacing_value :
    (∀ (b : String) (nq : ℚ) (u : String), parseUnit b = ⟨some nq, u⟩ →
      (∀ step ∈ scaleSteps, spacingValue b step = specSpacingText nq step u) ∧
      spacingValue b 0 = "0" ++ u ∧ u ≠ "" ∧ spacingValue b 0 ≠ "0") ∧
    spacingValue "16px" 0 = "0px" ∧
    spacingValue "16px" (3/2) = "24px" ∧
    spacingValue "1rem" (1/4) = "0.25rem" := by
  refine ⟨?_, by with_unfolding_all decide, by with_unfolding_all decide,
    by with_unfolding_all decide⟩
  intro b nq u hp
  have hu : u ≠ "" := by
    have hne := parseUnit_unit_ne b
    rw [hp] at hne
    exact hne
  have hzero : spacingValue b 0 = "0" ++ u := by
    simp only [spacingValue, hp, mul_zero]
    norm_num
    rfl
  refine ⟨?_, hzero, hu, ?_⟩
  · intro step _
    simp only [spacingValue, hp, specSpacingText]
  · rw [hzero]
    intro hcontra
    apply hu
    have hlen := congrArg String.length hcontra
    rw [String.length_append] at hlen
    have : u.length = 0 := by
      have h0 : ("0" : String).length = 1 := rfl
      omega
    cases hu2 : u.data with
    | nil =>
        apply String.ext
        rw [hu2]
    | cons x xs =>
        exfalso
        have : u.length = u.data.length := rfl
        rw [hu2] at this
        simp at this
        omega

/-- Claim C8: the orchestrator concatenates the header comment, palette,
typography, layout, the component blocks in the fixed recognized order
(button, card, alert), the utility blocks in the fixed recognized order
(spacing, flex, color, image) and the transition utility last; the
autoprefixer runs on the full concatenated text and the minifier on the
autoprefixed text, not on the raw text. -/
theorem claim_C8_orchestration :
    ∀ (config : ThemeConfig),
      buildCss config = buildCssSpec config ∧
      readableCss config = applyAutoprefixRules (buildCss config) ∧
      minifiedCss config = minifyCSS (applyAutoprefixRules (buildCss config)) := by
  intro config
  refine ⟨?_, rfl, rfl⟩
  have hspecB : specComponentBlock "button" config.theme = buttonBlock config.theme := rfl
  have hspecC : specComponentBlock "card" config.theme = cardBlock config.theme := rfl
  have hspecA : specComponentBlock "alert" config.theme = alertBlock config.theme := rfl
  have hspecS : specUtilityBlock "spacing" config = generateSpacingUtilities config.theme := rfl
  have hspecF : specUtilityBlock "flex" config = generateFlexUtilities config.theme.layout := rfl
  have hspecCo : specUtilityBlock "color" config = colorBorderBlock config.theme.colors := rfl
  have hspecI : specUtilityBlock "image" config = generateImageUtilities := rfl
  have hcomp : generateComponents config.components config.theme =
      strConcat ((["button", "card", "alert"].filter
        (fun n => config.components.contains n)).map
          (fun n => specComponentBlock n config.theme)) := by
    rw [generateComponents]
    cases hb : config.components.contains "button" <;>
      cases hc : config.components.contains "card" <;>
        cases ha : config.components.contains "alert" <;>
          simp only [List.filter_cons, List.filter_nil, hb, hc, ha,
            Bool.false_eq_true, eq_self_iff_true, if_true, if_false,
            List.map_cons, List.map_nil, strConcat_cons, strConcat_nil,
            hspecB, hspecC, hspecA,
            String.append_empty, String.empty_append, String.append_assoc]
  have hutil : generateUtilityCss config =
      strConcat ((["spacing", "flex", "color", "image"].filter
        (fun n => config.utilities.contains n)).map
          (fun n => specUtilityBlock n config)) ++
      generateTransitionUtility config.theme := by
    rw [generateUtilityCss]
    cases hs : config.utilities.contains "spacing" <;>
      cases hf : config.utilities.contains "flex" <;>
        cases hco : config.utilities.contains "color" <;>
          cases hi : config.utilities.contains "image" <;>
            simp only [List.filter_cons, List.filter_nil, hs, hf, hco, hi,
              Bool.false_eq_true, eq_self_iff_true, if_true, if_false,
              List.map_cons, List.map_nil, strConcat_cons, strConcat_nil,
              hspecS, hspecF, hspecCo, hspecI,
              String.append_empty, String.empty_append, String.append_assoc]
  rw [buildCss, buildCssSpec, hcomp, hutil]
  simp only [String.append_assoc]

/-- Witness for claim C5 at the concrete base unit of sixteen pixels. -/
theorem claim_C5_witness :
    spacingValue "16px" (1/2) = specSpacingText 16 (1/2) "px" ∧
    spacingValue "16px" 0 = "0" ++ "px" ∧
    ("px" : String) ≠ "" ∧ spacingValue "16px" 0 ≠ "0" := by
  have h := claim_C5_spacing_value.1 "16px" 16 "px" (by with_unfolding_all decide)
  exact ⟨h.1 (1/2) (by with_unfolding_all decide), h.2.1, h.2.2.1, h.2.2.2⟩

/-- Claim C4: for every positive column count and every index between one
and the count, the layout emits a column class whose width percentage is
the index over the count times one hundred, formatted with exactly four
decimal digits including trailing zeros, used identically for flex-basis
and max-width; the full column set is re-emitted per breakpoint inside a
min-width media query with the colon-escaped prefixed name; and for twelve
columns the percentages at indices twelve and six are exactly one hundred
point four zeros and fifty point four zeros. -/
theorem claim_C4_layout :
    (∀ theme : Theme,
      generateLayout theme =
        ".container \x7b\n  max-width: " ++ theme.layout.container ++
          ";\n  margin: 0 auto;\n  padding: 0 " ++
          (jsJNumRepr (parseUnit (jsOrS theme.spacing.baseUnit "16px")).number ++
            (parseUnit (jsOrS theme.spacing.baseUnit "16px")).unit) ++ ";\n\x7d\n\n" ++
        ".row \x7b\n  display: flex;\n  flex-wrap: wrap;\n  gap: " ++
          (jsJNumRepr (parseUnit (jsOrS theme.spacing.baseUnit "16px")).number ++
            (parseUnit (jsOrS theme.spacing.baseUnit "16px")).unit) ++ ";\n\x7d\n\n" ++
        strConcat ((List.range theme.layout.cols).map
          (fun k => colEntry theme.layout.cols (k+1))) ++ "\n" ++
        strConcat (theme.layout.breakpoints.map
          (fun bp => "@media (min-width: " ++ bp.2 ++ ") \x7b\n" ++
            strConcat ((List.range theme.layout.cols).map
              (fun k => bpColEntry theme.layout.cols bp.1 (k+1))) ++ "\x7d\n\n"))) ∧
    (∀ cols i : ℕ, colEntry cols i =
      ".col-" ++ natStr i ++ " \x7b flex: 0 0 " ++ colPct cols i ++
        "%; max-width: " ++ colPct cols i ++ "%; \x7d\n") ∧
    (∀ (cols : ℕ) (pre : String) (i : ℕ), bpColEntry cols pre i =
      "  ." ++ pre ++ "\\:col-" ++ natStr i ++ " \x7b flex: 0 0 " ++ colPct cols i ++
        "%; max-width: " ++ colPct cols i ++ "%; \x7d\n") ∧
    (∀ q : ℚ, ∃ m k, fixed4 q = natStr m ++ "." ++ String.mk (frac4 k) ∧
      (String.mk (frac4 k)).length = 4) ∧
    (∀ cols : ℕ, 1 ≤ cols → colPct cols cols = "100.0000") ∧
    colPct 12 12 = "100.0000" ∧ colPct 12 6 = "50.0000" := by
  refine ⟨fun theme => rfl, fun cols i => rfl, fun cols pre i => rfl,
    fun q => ⟨((jsRound (q * 10000)).toNat) / 10000, ((jsRound (q * 10000)).toNat) % 10000,
      rfl, rfl⟩, ?_, by with_unfolding_all decide, by with_unfolding_all decide⟩
  intro cols hc
  have hne : (cols : ℚ) ≠ 0 := Nat.cast_ne_zero.mpr (by omega)
  show fixed4 (((cols : ℚ) / (cols : ℚ)) * 100) = "100.0000"
  rw [div_self hne, one_mul]
  with_unfolding_all decide

/-- Witness for claim C4 at the concrete column count seven. -/
theorem claim_C4_witness : colPct 7 7 = "100.0000" :=
  claim_C4_layout.2.2.2.2.1 7 (by omega)

section ColorLemmas

theorem hexVal_lt (c : Char) : hexVal c < 16 := by
  unfold hexVal
  split
  · rename_i h
    simp only [Bool.and_eq_true, decide_eq_true_eq] at h
    omega
  · split
    · rename_i h
      simp only [Bool.and_eq_true, decide_eq_true_eq] at h
      omega
    · split
      · rename_i h
        simp only [Bool.and_eq_true, decide_eq_true_eq] at h
        omega
      · omega

theorem clampChannel_le (q : ℚ) : clampChannel q ≤ 255 := by
  unfold clampChannel
  have h : min 255 (max 0 (jsRound q)) ≤ (255 : ℤ) := min_le_left _ _
  omega

theorem jsAdjustChannel_le (amount : ℚ) (ch : ℕ) : jsAdjustChannel amount ch ≤ 255 := by
  unfold jsAdjustChannel
  split
  · exact clampChannel_le _
  · exact clampChannel_le _

theorem hexRunVal_six (d0 d1 d2 d3 d4 d5 : Char)
    (h0 : isHexDigitC d0 = true) (h1 : isHexDigitC d1 = true)
    (h2 : isHexDigitC d2 = true) (h3 : isHexDigitC d3 = true)
    (h4 : isHexDigitC d4 = true) (h5 : isHexDigitC d5 = true) :
    hexRunVal [d0, d1, d2, d3, d4, d5] =
      some (hexVal d0 * 1048576 + hexVal d1 * 65536 + hexVal d2 * 4096 +
        hexVal d3 * 256 + hexVal d4 * 16 + hexVal d5) := by
  rw [hexRunVal]
  have htake : List.takeWhile isHexDigitC [d0, d1, d2, d3, d4, d5]
      = [d0, d1, d2, d3, d4, d5] := by
    simp [List.takeWhile_cons, h0, h1, h2, h3, h4, h5]
  rw [htake, if_neg (by simp)]
  refine congrArg some ?_
  simp only [List.foldl_cons, List.foldl_nil]
  ring

theorem encodeHex_eq (R G B : ℕ) (hR : R ≤ 255) (hG : G ≤ 255) (hB : B ≤ 255) :
    (hexDigitsLen 7 (16777216 + R * 65536 + G * 256 + B)).drop 1 =
    [hexDigitChar (R / 16), hexDigitChar (R % 16), hexDigitChar (G / 16),
     hexDigitChar (G % 16), hexDigitChar (B / 16), hexDigitChar (B % 16)] := by
  simp only [hexDigitsLen, List.nil_append, List.singleton_append, List.cons_append,
    List.append_nil, List.drop_succ_cons, List.drop_zero]
  refine List.cons_eq_cons.mpr ⟨congrArg hexDigitChar (by omega),
    List.cons_eq_cons.mpr ⟨congrArg hexDigitChar (by omega),
    List.cons_eq_cons.mpr ⟨congrArg hexDigitChar (by omega),
    List.cons_eq_cons.mpr ⟨congrArg hexDigitChar (by omega),
    List.cons_eq_cons.mpr ⟨congrArg hexDigitChar (by omega),
    List.cons_eq_cons.mpr ⟨congrArg hexDigitChar (by omega), rfl⟩⟩⟩⟩⟩⟩

end ColorLemmas

section AutoprefixLemmas

theorem ruleList_ok : ∀ r ∈ ruleList, ruleOk r := by
  intro r hr
  simp only [ruleList, List.mem_cons, List.mem_singleton, List.not_mem_nil,
    or_false] at hr
  rcases hr with rfl | rfl | rfl | rfl | rfl | rfl | rfl | rfl | rfl
  · exact ⟨by decide, by decide⟩
  · exact ⟨by decide, by decide⟩
  · exact (by decide : ("user-select:".data : List Char) ≠ [])
  · exact ⟨by decide, by decide⟩
  · exact (by decide : ("backdrop-filter:".data : List Char) ≠ [])
  · exact (by decide : ("object-fit:".data : List Char) ≠ [])
  · exact (by decide : ("transition:".data : List Char) ≠ [])
  · exact (by decide : ("box-shadow:".data : List Char) ≠ [])
  · exact (by decide : ("transform:".data : List Char) ≠ [])

theorem matchAt_split (r : Rule) (hok : ruleOk r) (l m rest : List Char)
    (h : matchAt r l = some (m, rest)) : l = m ++ rest ∧ m ≠ [] := by
  cases r with
  | lit pat ins =>
      rw [matchAt] at h
      by_cases hp : pat.isPrefixOf l
      · rw [if_pos hp] at h
        injection h with h'
        injection h' with hm hrest
        obtain ⟨t, ht⟩ := List.isPrefixOf_iff_prefix.mp hp
        subst hm
        constructor
        · rw [← hrest, ← ht, List.drop_left]
        · exact hok
      · rw [if_neg hp] at h
        exact absurd h (by simp)
  | litWs p1 p2 ins =>
      rw [matchAt] at h
      by_cases hp1 : p1.isPrefixOf l
      case neg => rw [if_neg hp1] at h; exact absurd h (by simp)
      rw [if_pos hp1] at h
      by_cases hp2 : p2.isPrefixOf ((l.drop p1.length).dropWhile isWs)
      case neg => rw [if_neg hp2] at h; exact absurd h (by simp)
      rw [if_pos hp2] at h
      injection h with h'
      injection h' with hm hrest
      obtain ⟨t1, ht1⟩ := List.isPrefixOf_iff_prefix.mp hp1
      obtain ⟨t2, ht2⟩ := List.isPrefixOf_iff_prefix.mp hp2
      have hdrop : l.drop p1.length = t1 := by rw [← ht1, List.drop_left]
      have hrest2 : rest = t2 := by rw [← hrest, ← ht2, List.drop_left]
      rw [hdrop] at ht2
      constructor
      · subst hm
        rw [hrest2, hdrop, ← ht1]
        conv_lhs => rw [← List.takeWhile_append_dropWhile isWs t1, ← ht2]
        simp [List.append_assoc]
      · subst hm
        intro hcontra
        apply hok.1
        cases hpp : p1 with
        | nil => rfl
        | cons x xs => rw [hpp] at hcontra; simp at hcontra

theorem scanRuleAux_fuel (r : Rule) (hok : ruleOk r) :
    ∀ (f1 f2 : ℕ) (l : List Char), l.length ≤ f1 → l.length ≤ f2 →
      scanRuleAux f1 r l = scanRuleAux f2 r l := by
  intro f1
  induction f1 with
  | zero =>
      intro f2 l h1 _
      have hl : l = [] := List.eq_nil_of_length_eq_zero (Nat.le_zero.mp h1)
      subst hl
      cases f2 <;> rfl
  | succ f ih =>
      intro f2 l h1 h2
      cases l with
      | nil => cases f2 <;> rfl
      | cons c cs =>
          cases f2 with
          | zero => simp at h2
          | succ f2f =>
              simp only [List.length_cons] at h1 h2
              cases hm : matchAt r (c :: cs) with
              | none =>
                  simp only [scanRuleAux, hm]
                  exact congrArg (c :: ·) (ih f2f cs (by omega) (by omega))
              | some pair =>
                  obtain ⟨m, rest⟩ := pair
                  obtain ⟨hsplit, hmne⟩ := matchAt_split r hok _ m rest hm
                  have hm1 : 1 ≤ m.length := by
                    cases m with
                    | nil => exact absurd rfl hmne
                    | cons x xs => simp
                  have hlen : rest.length + m.length = cs.length + 1 := by
                    have hcong := congrArg List.length hsplit
                    simp [List.length_append] at hcong
                    omega
                  simp only [scanRuleAux, hm]
                  rw [ih f2f rest (by omega) (by omega)]

theorem firstMatch_scan (r : Rule) (hok : ruleOk r) :
    ∀ (f : ℕ) (l a m rest : List Char), l.length ≤ f →
      firstMatchAux f r l = some (a, m, rest) →
      scanRuleAux f r l =
        a ++ (ruleIns r ++ '\n' :: ' ' :: ' ' ::
          (m ++ scanRuleAux rest.length r rest)) := by
  intro f
  induction f with
  | zero => intro l a m rest _ h2; simp [firstMatchAux] at h2
  | succ f ih =>
      intro l a m rest h1 h2
      cases l with
      | nil => simp [firstMatchAux] at h2
      | cons c cs =>
          simp only [List.length_cons] at h1
          cases hm : matchAt r (c :: cs) with
          | some pair =>
              obtain ⟨mm, rr⟩ := pair
              simp only [firstMatchAux, hm, Option.some.injEq, Prod.mk.injEq] at h2
              obtain ⟨ha, hmm, hrr⟩ := h2
              rw [hmm, hrr] at hm
              obtain ⟨hsplit, hmne⟩ := matchAt_split r hok _ m rest hm
              have hm1 : 1 ≤ m.length := by
                cases m with
                | nil => exact absurd rfl hmne
                | cons x xs => simp
              have hlen : rest.length + m.length = cs.length + 1 := by
                have hcong := congrArg List.length hsplit
                simp [List.length_append] at hcong
                omega
              simp only [scanRuleAux, hm]
              rw [scanRuleAux_fuel r hok f rest.length rest (by omega) (le_refl _)]
              rw [← ha]
              simp
          | none =>
              simp only [firstMatchAux, hm] at h2
              cases hfm : firstMatchAux f r cs with
              | none => rw [hfm] at h2; simp at h2
              | some trip =>
                  obtain ⟨aa, x⟩ := trip
                  obtain ⟨mm, rr⟩ := x
                  rw [hfm] at h2
                  simp only [Option.map_some', Option.some.injEq, Prod.mk.injEq] at h2
                  obtain ⟨ha, hmm, hrr⟩ := h2
                  rw [hmm, hrr] at hfm
                  simp only [scanRuleAux, hm]
                  rw [ih cs aa m rest (by omega) hfm]
                  rw [← ha]
                  simp [List.cons_append]

end AutoprefixLemmas

/-- Claim C7: the autoprefixer applies its rule list strictly in the stated
order (display flex, display inline-flex, user-select, appearance none,
backdrop-filter, object-fit, transition, box-shadow, transform)
sequentially over the whole stylesheet text, and each rule, at every
position where its pattern matches, inserts its vendor-prefixed text
followed by a newline and two spaces immediately before the original match
while leaving the matched text intact and continuing after it. -/
theorem claim_C7_autoprefix :
    (∀ css : String, applyAutoprefixRules css =
      applyRule ruleTransformProp (applyRule ruleBoxShadow (applyRule ruleTransitionProp
        (applyRule ruleObjectFit (applyRule ruleBackdrop (applyRule ruleAppearance
          (applyRule ruleUserSelect (applyRule ruleInlineFlex
            (applyRule ruleDisplayFlex css))))))))) ∧
    (∀ r, r ∈ ruleList → ∀ (s : String) (a m rest : List Char),
      firstMatch r s = some (a, m, rest) →
      applyRule r s = String.mk a ++ String.mk (ruleIns r) ++ "\n  " ++
        String.mk m ++ applyRule r (String.mk rest)) := by
  constructor
  · intro css
    simp only [applyAutoprefixRules, ruleList, List.foldl_cons, List.foldl_nil]
  · intro r hr s a m rest h
    have hok := ruleList_ok r hr
    rw [applyRule]
    rw [firstMatch_scan r hok s.data.length s.data a m rest (le_refl _) h]
    show String.mk (a ++ (ruleIns r ++ '\n' :: ' ' :: ' ' ::
      (m ++ scanRuleAux rest.length r rest))) = _
    rw [applyRule]
    show _ = String.mk (((a ++ ruleIns r) ++ ['\n', ' ', ' ']) ++ m ++
      scanRuleAux (String.mk rest).data.length r (String.mk rest).data)
    refine congrArg String.mk ?_
    simp [List.append_assoc]

/-- Witness for claim C7: the user-select rule applied to a concrete
declaration inserts the prefixed text before the intact original match. -/
theorem claim_C7_witness :
    applyRule ruleUserSelect "a \x7b user-select: none; \x7d" =
      String.mk "a \x7b ".data ++ String.mk (ruleIns ruleUserSelect) ++ "\n  " ++
      String.mk "user-select:".data ++ applyRule ruleUserSelect (String.mk " none; \x7d".data) :=
  claim_C7_autoprefix.2 ruleUserSelect (by decide) "a \x7b user-select: none; \x7d"
    "a \x7b ".data "user-select:".data " none; \x7d".data (by decide)

section CountLemmas

theorem selTokens_map_fst :
    ∀ (f : ℕ) (p : Option Char) (l : List Char),
      (selTokensAux f p l).map Prod.fst = cssTokensAux f l := by
  intro f
  induction f with
  | zero => intro p l; rfl
  | succ f ih =>
      intro p l
      cases l with
      | nil => rfl
      | cons c cs =>
          by_cases hc : (c = '.' && headIsName cs) = true
          · rw [selTokensAux, if_pos hc, cssTokensAux, if_pos hc]
            rw [List.map_cons, ih]
          · rw [selTokensAux, if_neg hc, cssTokensAux, if_neg hc]
            exact ih _ _

end CountLemmas

set_option maxRecDepth 40000 in
/-- Claim C9 counterexample: on the concrete build for the minimal
configuration, the reported metric counts nine distinct dot tokens while the
readable stylesheet contains exactly four dot tokens at class-selector
positions (container, row, col-1, transition) — the other five counted
tokens are fraction digits of the percentage values, the decimal parts of
length values, and the dotted file name in the banner comment. -/
theorem claim_C9_counterexample :
    countClasses (readableCss cfgMinimal) = 9 ∧
    classSelCount (readableCss cfgMinimal) = 4 ∧
    countClasses (readableCss cfgMinimal) ≠ classSelCount (readableCss cfgMinimal) := by
  have h1 : countClasses (readableCss cfgMinimal) = 9 := by with_unfolding_all decide
  have h2 : classSelCount (readableCss cfgMinimal) = 4 := by with_unfolding_all decide
  exact ⟨h1, h2, by rw [h1, h2]; decide⟩

/-- Claim C9 (amended): `countClasses` returns the number of distinct
matches of the unanchored dot-token pattern, which only bounds from above
the number of distinct dot tokens at class-selector positions: every token
at a class-selector position is also a counted match. -/
theorem claim_C9_countClasses_bound :
    ∀ (css : String), classSelCount css ≤ countClasses css := by
  intro css
  unfold classSelCount countClasses cssTokens
  apply Finset.card_le_card
  intro x hx
  simp only [List.mem_toFinset] at hx ⊢
  obtain ⟨pair, hmem, hmk⟩ := List.mem_map.mp hx
  have hmem2 : pair ∈ selTokensAux css.data.length none css.data :=
    List.mem_of_mem_filter hmem
  rw [← selTokens_map_fst css.data.length none css.data, List.map_map]
  exact List.mem_map.mpr ⟨pair, hmem2, hmk⟩

/-- Claim C2: for every six-hex-digit color string and every amount in the
interval from minus one to one, adjustColor decodes the three channels,
moves each channel toward 255 by channel plus (255 minus channel) times
amount when the amount is nonnegative and toward 0 by channel times (one
minus the absolute amount) otherwise, rounds to nearest, clamps to the byte
range, and returns a hash sign followed by exactly six zero-padded hex
digits; the same channel function is applied to all three channels, and in
particular black lightened by one half is mid gray and white darkened by
one half is mid gray. -/
theorem claim_C2_adjustColor :
    (∀ (d0 d1 d2 d3 d4 d5 : Char) (amount : ℚ),
      isHexDigitC d0 = true → isHexDigitC d1 = true → isHexDigitC d2 = true →
      isHexDigitC d3 = true → isHexDigitC d4 = true → isHexDigitC d5 = true →
      -1 ≤ amount → amount ≤ 1 →
      adjustColor (String.mk ['#', d0, d1, d2, d3, d4, d5]) amount =
        "#" ++ byteHex (jsAdjustChannel amount (16 * hexVal d0 + hexVal d1)) ++
        byteHex (jsAdjustChannel amount (16 * hexVal d2 + hexVal d3)) ++
        byteHex (jsAdjustChannel amount (16 * hexVal d4 + hexVal d5))) ∧
    adjustColor "#000000" (1/2) = "#808080" ∧
    adjustColor "#ffffff" (-(1/2)) = "#808080" := by
  refine ⟨?_, by with_unfolding_all decide, by with_unfolding_all decide⟩
  intro d0 d1 d2 d3 d4 d5 amount h0 h1 h2 h3 h4 h5 _ _
  have b0 := hexVal_lt d0
  have b1 := hexVal_lt d1
  have b2 := hexVal_lt d2
  have b3 := hexVal_lt d3
  have b4 := hexVal_lt d4
  have b5 := hexVal_lt d5
  have hdata : replaceFirstHash (String.mk ['#', d0, d1, d2, d3, d4, d5]).data
      = [d0, d1, d2, d3, d4, d5] := rfl
  rw [adjustColor, hdata, hexRunVal_six d0 d1 d2 d3 d4 d5 h0 h1 h2 h3 h4 h5]
  have hmod : (hexVal d0 * 1048576 + hexVal d1 * 65536 + hexVal d2 * 4096 +
      hexVal d3 * 256 + hexVal d4 * 16 + hexVal d5) % 4294967296 =
      hexVal d0 * 1048576 + hexVal d1 * 65536 + hexVal d2 * 4096 +
      hexVal d3 * 256 + hexVal d4 * 16 + hexVal d5 :=
    Nat.mod_eq_of_lt (by omega)
  have hr : (hexVal d0 * 1048576 + hexVal d1 * 65536 + hexVal d2 * 4096 +
      hexVal d3 * 256 + hexVal d4 * 16 + hexVal d5) / 65536 % 256 =
      16 * hexVal d0 + hexVal d1 := by omega
  have hg : (hexVal d0 * 1048576 + hexVal d1 * 65536 + hexVal d2 * 4096 +
      hexVal d3 * 256 + hexVal d4 * 16 + hexVal d5) / 256 % 256 =
      16 * hexVal d2 + hexVal d3 := by omega
  have hb : (hexVal d0 * 1048576 + hexVal d1 * 65536 + hexVal d2 * 4096 +
      hexVal d3 * 256 + hexVal d4 * 16 + hexVal d5) % 256 =
      16 * hexVal d4 + hexVal d5 := by omega
  simp only [hmod, hr, hg, hb]
  have hadj : ∀ ch : ℕ,
      (if 0 ≤ amount then
        clampChannel ((ch : ℚ) + (255 - (ch : ℚ)) *
          (if 0 ≤ amount then amount else -amount))
      else clampChannel ((ch : ℚ) *
          (1 - (if 0 ≤ amount then amount else -amount)))) =
      jsAdjustChannel amount ch := by
    intro ch
    by_cases ha : 0 ≤ amount
    · simp only [jsAdjustChannel, if_pos ha]
    · simp only [jsAdjustChannel, if_neg ha]
      congr 2
      rw [abs_of_neg (lt_of_not_ge ha)]
  simp only [hadj]
  rw [encodeHex_eq _ _ _ (jsAdjustChannel_le _ _) (jsAdjustChannel_le _ _)
    (jsAdjustChannel_le _ _)]
  rfl

/-- Witness for claim C2 at the concrete color with digits 3, b, 8, 2, f, 6
and the amount eighteen hundredths. -/
theorem claim_C2_witness :
    adjustColor (String.mk ['#', '3', 'b', '8', '2', 'f', '6']) (18/100) =
      "#" ++ byteHex (jsAdjustChannel (18/100) (16 * hexVal '3' + hexVal 'b')) ++
      byteHex (jsAdjustChannel (18/100) (16 * hexVal '8' + hexVal '2')) ++
      byteHex (jsAdjustChannel (18/100) (16 * hexVal 'f' + hexVal '6')) :=
  claim_C2_adjustColor.1 '3' 'b' '8' '2' 'f' '6' (18/100)
    (by decide) (by decide) (by decide) (by decide) (by decide) (by decide)
    (by norm_num) (by norm_num)

end Plugo


